import Mathlib

/-!
Shallow embedding of the GitHub profile analyzer (src/analyzer.py).

Modelling conventions:
* Text is modelled by `String`; all character-level operations (lower-casing,
  substring search, lexicographic comparison) are defined over `String.data`
  so that they reduce in the kernel.  Python `str.lower` becomes a `Char.toLower`
  map, Python `needle in haystack` becomes contiguous-sublist search.
* Timestamps (account creation, commit committer dates, event creation times,
  the "now" of an analysis) are integers counting seconds in UTC.  Python
  `timedelta.days` floors toward minus infinity, hence `Int.fdiv _ 86400`.
  A calendar day (UTC) is the value `t.fdiv 86400`.
* Python floats are modelled as exact rationals; `round(x, 2)` is modelled as
  `⌊x * 100 + 1/2⌋ / 100`.  No claim below depends on tie-breaking behaviour
  of the rounding.
* `collections.Counter` is modelled as an association list in insertion order
  (`bump` is `counter[k] += 1`).
* The network layer is out of scope: an `Env` record carries the data every
  fetch would return (`none` / `[]` standing for a failed or empty fetch),
  and `compute_profile_analysis` is a pure function of that environment.
-/

namespace GitHubAnalyzer

/-- Python `str.lower`, on the character list of the string. -/
def strLower (s : String) : String := String.mk (s.data.map Char.toLower)

/-- Boolean prefix test on character lists. -/
def isPrefixCh : List Char → List Char → Bool
  | [], _ => true
  | _ :: _, [] => false
  | a :: as, b :: bs => a = b && isPrefixCh as bs

/-- Contiguous-sublist search on character lists (Python `needle in haystack`). -/
def containsSubCh (needle : List Char) : List Char → Bool
  | [] => needle.isEmpty
  | b :: bs => isPrefixCh needle (b :: bs) || containsSubCh needle bs

/-- Python `needle in haystack` for strings. -/
def strContains (haystack needle : String) : Bool :=
  containsSubCh needle.data haystack.data

/-- Lexicographic comparison of character lists by code point. -/
def lexLeCh : List Char → List Char → Bool
  | [], _ => true
  | _ :: _, [] => false
  | a :: as, b :: bs => if a = b then lexLeCh as bs else decide (a < b)

/-- Python string `<=` (lexicographic by code point). -/
def strLe (a b : String) : Bool := lexLeCh a.data b.data

/-- One step of a stable insertion sort on strings. -/
def insertSorted (x : String) : List String → List String
  | [] => [x]
  | y :: ys => if strLe x y then x :: y :: ys else y :: insertSorted x ys

/-- Python `sorted` on a list of strings. -/
def sortStrings (l : List String) : List String := l.foldr insertSorted []

/-- AI keyword set (analyzer.py lines 18-22). -/
def AI_KEYWORDS : List String :=
  ["tensorflow", "pytorch", "scikit-learn", "torch", "keras",
   "mxnet", "openai", "transformers", "natural language processing", "nlp",
   "machine learning", "ml", "deep learning"]

/-- Crypto keyword set (analyzer.py lines 24-28). -/
def CRYPTO_KEYWORDS : List String :=
  ["solidity", "rust", "web3", "web3.js", "ethers.js", "nft",
   "smart contract", "blockchain", "decentralized", "defi", "dao",
   "cryptocurrency", "bitcoin", "ethereum", "dapp"]

/-- Languages considered relevant for AI (analyzer.py line 31). -/
def AI_LANGUAGES : List String :=
  ["Python", "JavaScript", "TypeScript", "Rust", "C++", "Java"]

/-- Languages considered relevant for crypto (analyzer.py line 32). -/
def CRYPTO_LANGUAGES : List String :=
  ["Solidity", "Rust", "JavaScript", "TypeScript", "Go", "C++"]

/-- The fields of the GitHub user record that the analyzer reads.
`created_at` is the parsed creation timestamp (seconds, UTC);
`message` models the `message` field of an error payload. -/
structure User where
  created_at : Option ℤ
  bio : Option String
  blog : Option String
  twitter_username : Option String
  message : Option String
deriving DecidableEq

/-- The fields of a repository record that the analyzer reads.
The owner login is only used to address fetches and is omitted. -/
structure Repo where
  name : String
  language : Option String
  topics : List String
  description : Option String
deriving DecidableEq

/-- A commit; only the committer date (parsed to seconds, UTC) is read. -/
structure Commit where
  date : ℤ
deriving DecidableEq

/-- A public user event: creation timestamp (seconds, UTC) and type tag. -/
structure Event where
  created_at : ℤ
  type : String
deriving DecidableEq

/-- Everything the network layer would deliver to one analysis run:
the user lookup result (`none` = failed lookup), the full repository
listing, per-repo fetch results, the public event list, and the current
time.  `readme r = none` models a failed or missing README fetch;
`commits r = []` models a failed or empty commit fetch;
`depFile r filename = none` models a missing or undecodable file. -/
structure Env where
  user : Option User
  repos : List Repo
  readme : Repo → Option String
  commits : Repo → List Commit
  depFile : Repo → String → Option String
  events : List Event
  now : ℤ

/-- Python truthiness of an optional string (`None` and `""` are falsy). -/
def truthy : Option String → Bool
  | none => false
  | some s => !s.data.isEmpty

/-- `Counter[k] += 1` on an insertion-ordered association list. -/
def bump {α : Type} [DecidableEq α] : List (α × ℕ) → α → List (α × ℕ)
  | [], k => [(k, 1)]
  | (k2, n) :: rest, k =>
      if k2 = k then (k2, n + 1) :: rest else (k2, n) :: bump rest k

/-- `sum(counter.values())`. -/
def totalOf {α : Type} (c : List (α × ℕ)) : ℕ := (c.map Prod.snd).sum

/-- The keyword list of `is_deep_readme` (analyzer.py line 114). -/
def readme_keywords : List String :=
  ["installation", "usage", "getting started", "example", "how to",
   "setup", "tutorial", "documentation"]

/-- analyzer.py `is_deep_readme` (lines 111-116): `False` when the text is
absent, empty, or shorter than 200 characters; otherwise `True` iff the
lower-cased text contains one of the fixed keywords. -/
def is_deep_readme : Option String → Bool
  | none => false
  | some t =>
    if t.data.isEmpty || t.data.length < 200 then false
    else readme_keywords.any (fun k => strContains (strLower t) k)

/-- The UTC calendar day of a commit (model of `strftime %Y-%m-%d` grouping). -/
def dayKey (c : Commit) : ℤ := c.date.fdiv 86400

/-- The day → count histogram of a commit list (analyzer.py lines 119-124). -/
def dayCounts (commits : List Commit) : List (ℤ × ℕ) :=
  commits.foldl (fun c cm => bump c (dayKey cm)) []

/-- analyzer.py `analyze_commit_frequency` (lines 118-131): build the
day → count histogram, then flag as suspicious when all commits fall on one
day with more than 10 commits, or on fewer than 5 days with fewer than 20
commits in total. -/
def analyze_commit_frequency (commits : List Commit) : List (ℤ × ℕ) × Bool :=
  let day_counts := dayCounts commits
  if day_counts.length = 1 ∧ totalOf day_counts > 10 then (day_counts, true)
  else if day_counts.length < 5 ∧ totalOf day_counts < 20 then (day_counts, true)
  else (day_counts, false)

/-- The per-repo flag update of `detect_languages` (analyzer.py lines 138-156):
topics are lower-cased and matched as a set, the description is lower-cased
and searched for each keyword as a substring. -/
def detectStep (st : List (String × ℕ) × Bool × Bool) (r : Repo) :
    List (String × ℕ) × Bool × Bool :=
  let cnt := match r.language with
    | some l => bump st.1 l
    | none => st.1
  let topics := r.topics.map strLower
  let ai := st.2.1 || AI_KEYWORDS.any (fun kw => topics.contains kw)
  let cr := st.2.2 || CRYPTO_KEYWORDS.any (fun kw => topics.contains kw)
  let desc := strLower (r.description.getD (""))
  let ai := ai || AI_KEYWORDS.any (fun kw => strContains desc kw)
  let cr := cr || CRYPTO_KEYWORDS.any (fun kw => strContains desc kw)
  (cnt, ai, cr)

/-- analyzer.py `detect_languages` (lines 133-165): fold the per-repo check
over the FULL repository list, then additionally set the flags when an
observed primary language lies in the fixed AI / crypto language sets. -/
def detect_languages (repos : List Repo) : List (String × ℕ) × Bool × Bool :=
  let st := repos.foldl detectStep ([], false, false)
  let languages := st.1.map Prod.fst
  let ai := st.2.1 || AI_LANGUAGES.any (fun l => languages.contains l)
  let cr := st.2.2 || CRYPTO_LANGUAGES.any (fun l => languages.contains l)
  (st.1, ai, cr)

/-- The candidate dependency filenames (analyzer.py line 169). -/
def possible_files : List String :=
  ["requirements.txt", "environment.yml", "Pipfile", "package.json", "Cargo.toml"]

/-- AI library tokens searched in dependency files (analyzer.py line 187). -/
def AI_LIBS : List String :=
  ["tensorflow", "torch", "pytorch", "scikit-learn", "keras", "mxnet", "transformers"]

/-- Crypto library tokens searched in dependency files (analyzer.py line 191). -/
def CRYPTO_LIBS : List String :=
  ["web3", "ethers", "solidity", "rust", "bitcoin", "ethereum"]

/-- Set insertion for the accumulated dependency-token set. -/
def insertDep (deps : List String) (lib : String) : List String :=
  if deps.contains lib then deps else deps ++ [lib]

/-- analyzer.py `check_requirements_files` (lines 167-195): for each candidate
filename whose content is available, lower-case the content and collect every
AI or crypto library token occurring in it; failures just skip the file. -/
def check_requirements_files (env : Env) (r : Repo) : List String :=
  possible_files.foldl
    (fun deps fn =>
      match env.depFile r fn with
      | none => deps
      | some content =>
        let c := strLower content
        let deps := AI_LIBS.foldl
          (fun d lib => if strContains c lib then insertDep d lib else d) deps
        CRYPTO_LIBS.foldl
          (fun d lib => if strContains c lib then insertDep d lib else d) deps)
    []

/-- Stable descending insertion by count (model of `Counter.most_common`). -/
def insertByCount (x : String × ℕ) : List (String × ℕ) → List (String × ℕ)
  | [] => [x]
  | y :: ys => if x.2 ≥ y.2 then x :: y :: ys else y :: insertByCount x ys

/-- `Counter.most_common()`: stable sort, highest count first. -/
def mostCommon (c : List (String × ℕ)) : List (String × ℕ) :=
  c.foldr insertByCount []

/-- Python `str.rjust`. -/
def rjust (s : String) (w : ℕ) : String :=
  String.mk (List.replicate (w - s.data.length) (' ')) ++ s

/-- analyzer.py `ascii_bar_chart` (lines 197-209). -/
def ascii_bar_chart (counter : List (String × ℕ)) (title : String) : String :=
  if counter.isEmpty then title ++ "\nNo data."
  else
    let total := totalOf counter
    let max_len := (counter.map (fun p => p.1.data.length)).foldl max 0
    let lines := (mostCommon counter).map
      (fun p =>
        let bar_len := p.2 * 20 / total
        let bars := String.mk (List.replicate bar_len ('█'))
        rjust p.1 max_len ++ ": " ++ bars ++ " (" ++ toString p.2 ++ ")")
    String.intercalate ("\n") (title :: lines)

/-- The loop body of `analyze_pull_requests_and_issues`
(analyzer.py lines 216-224): skip events strictly older than the cutoff,
then bump the counter matching the event type. -/
def prStep (cutoff : ℤ) (acc : ℕ × ℕ) (ev : Event) : ℕ × ℕ :=
  if ev.created_at < cutoff then acc
  else if ev.type = ("PullRequestEvent") then (acc.1 + 1, acc.2)
  else if ev.type = ("IssuesEvent") then (acc.1, acc.2 + 1)
  else acc

/-- analyzer.py `analyze_pull_requests_and_issues` (lines 211-226): count
`PullRequestEvent` / `IssuesEvent` entries created at or after the cutoff
`now - 30 days`; strictly older events are skipped entirely. -/
def analyze_pull_requests_and_issues (now : ℤ) (events : List Event) : ℕ × ℕ :=
  let cutoff := now - 30 * 86400
  events.foldl (prStep cutoff) (0, 0)

/-- The account-age ramp (analyzer.py lines 289-292): 10 points beyond 365
days, otherwise a linear fraction of 10. -/
def accountAgePoints (d : ℤ) : ℚ :=
  if d > 365 then 10 else (d : ℚ) / 365 * 10

/-- Python `round(x, 2)` on the exact rational model. -/
def round2 (q : ℚ) : ℚ := (⌊q * 100 + 1 / 2⌋ : ℚ) / 100

/-- The `score_breakdown` dict (analyzer.py lines 242-249). -/
structure ScoreBreakdown where
  account_age_points : ℚ
  readme_points : ℕ
  commit_points : ℕ
  pr_issues_points : ℕ
  profile_bio_blog_points : ℕ
  ai_crypto_points : ℕ
deriving DecidableEq

/-- The dict returned by `compute_profile_analysis` on success
(analyzer.py lines 329-345). -/
structure AnalysisResult where
  user_data : User
  repo_data : List Repo
  readme_checks : List String
  commit_patterns : List String
  pull_requests_30d : ℕ
  issues_30d : ℕ
  lang_counter : List (String × ℕ)
  has_ai : Bool
  has_crypto : Bool
  score : ℚ
  warnings : List String
  ascii_lang_chart : String
  score_breakdown : ScoreBreakdown
  twitter_user : Option String
  blog : Option String
deriving DecidableEq

/-- Accumulator of the per-repo loop (analyzer.py lines 251-272): the
`readme_score` / `commit_score` locals, the two matching breakdown entries
(updated in lockstep by the source), warnings, and dependency listings. -/
structure RepoAcc where
  readme_score : ℕ
  commit_score : ℕ
  readme_points : ℕ
  commit_points : ℕ
  warnings : List String
  readme_checks : List String
deriving DecidableEq

/-- Initial accumulator of the per-repo loop. -/
def initAcc : RepoAcc := ⟨0, 0, 0, 0, [], []⟩

/-- Warning for a shallow or missing README (analyzer.py line 257). -/
def shallowWarning (r : Repo) : String :=
  "Repo \x27" ++ r.name ++ "\x27: Shallow or missing README."

/-- Warning for a suspicious commit pattern (analyzer.py line 263). -/
def suspiciousWarning (r : Repo) : String :=
  "Repo \x27" ++ r.name ++ "\x27: Suspicious commit pattern."

/-- Dependency listing line (analyzer.py line 272). -/
def depsLine (r : Repo) (deps : List String) : String :=
  r.name ++ " dependencies: " ++ String.intercalate (", ") (sortStrings deps)

/-- The body of the per-repo loop (analyzer.py lines 251-272). -/
def processRepo (env : Env) (acc : RepoAcc) (r : Repo) : RepoAcc :=
  let acc :=
    if is_deep_readme (env.readme r) then
      { acc with
        readme_score := acc.readme_score + 2
        readme_points := acc.readme_points + 2 }
    else
      { acc with warnings := acc.warnings ++ [shallowWarning r] }
  let dc := analyze_commit_frequency (env.commits r)
  let acc :=
    if dc.2 then
      { acc with warnings := acc.warnings ++ [suspiciousWarning r] }
    else
      let pts := min dc.1.length 5
      { acc with
        commit_score := acc.commit_score + pts
        commit_points := acc.commit_points + pts }
  let deps := check_requirements_files env r
  if deps.isEmpty then acc
  else { acc with readme_checks := acc.readme_checks ++ [depsLine r deps] }

/-- The successful branch of `compute_profile_analysis`
(analyzer.py lines 234-345), as a pure function of the environment and the
(found) user record. -/
def analysisBody (env : Env) (user_data : User) : AnalysisResult :=
  let repos := env.repos
  let acc := (repos.take 5).foldl (processRepo env) initAcc
  let pi := analyze_pull_requests_and_issues env.now env.events
  let dl := detect_languages repos
  let chart := ascii_bar_chart dl.1 ("Language Usage")
  let account_age_points : ℚ :=
    match user_data.created_at with
    | some created => accountAgePoints ((env.now - created).fdiv 86400)
    | none => 0
  let pr_issues_points : ℕ := pi.1 * 2 + pi.2
  let profile_bio_blog_points : ℕ :=
    if truthy user_data.bio || truthy user_data.blog then 5 else 0
  let ai_crypto_points : ℕ :=
    (if dl.2.1 then 3 else 0) + (if dl.2.2 then 3 else 0)
  let base_score : ℚ :=
    account_age_points + acc.readme_score + acc.commit_score
      + pr_issues_points + profile_bio_blog_points + ai_crypto_points
  let final_score : ℚ := min base_score 30 / 30 * 100
  { user_data := user_data
    repo_data := repos
    readme_checks := acc.readme_checks
    commit_patterns := []
    pull_requests_30d := pi.1
    issues_30d := pi.2
    lang_counter := dl.1
    has_ai := dl.2.1
    has_crypto := dl.2.2
    score := round2 final_score
    warnings := acc.warnings
    ascii_lang_chart := chart
    score_breakdown :=
      { account_age_points := round2 account_age_points
        readme_points := acc.readme_points
        commit_points := acc.commit_points
        pr_issues_points := pr_issues_points
        profile_bio_blog_points := profile_bio_blog_points
        ai_crypto_points := ai_crypto_points }
    twitter_user := user_data.twitter_username
    blog := user_data.blog }

/-- analyzer.py `compute_profile_analysis` (lines 228-345): the error marker
is returned exactly when the user lookup failed (falsy payload) or the
payload carries `message == "Not Found"`; otherwise the full result. -/
def compute_profile_analysis (env : Env) : Except String AnalysisResult :=
  match env.user with
  | none => .error ("User not found")
  | some user_data =>
    if user_data.message = some ("Not Found") then .error ("User not found")
    else .ok (analysisBody env user_data)

/-! ### Derived views of the pipeline, used to state the claims.

These definitions re-express pieces of the code above (the per-repo loop
body and the six category contributions) as standalone functions, so that
claims can be stated as equations between the pipeline and these views. -/

/-- README contribution of one repository (2 or 0, analyzer.py lines 252-258). -/
def readmeContrib (env : Env) (r : Repo) : ℕ :=
  if is_deep_readme (env.readme r) then 2 else 0

/-- Commit contribution of one repository (analyzer.py lines 260-268). -/
def commitContrib (env : Env) (r : Repo) : ℕ :=
  let dc := analyze_commit_frequency (env.commits r)
  if dc.2 then 0 else min dc.1.length 5

/-- Warnings emitted while processing one repository, in emission order. -/
def warnContrib (env : Env) (r : Repo) : List String :=
  (if is_deep_readme (env.readme r) then [] else [shallowWarning r])
    ++ (if (analyze_commit_frequency (env.commits r)).2 then [suspiciousWarning r] else [])

/-- Dependency listing emitted while processing one repository. -/
def checksContrib (env : Env) (r : Repo) : List String :=
  let deps := check_requirements_files env r
  if deps.isEmpty then [] else [depsLine r deps]

/-- Number of distinct UTC calendar days among the commits. -/
def distinctDays (commits : List Commit) : ℕ := (commits.map dayKey).dedup.length

/-- Raw (unrounded) account-age category value of an analysis. -/
def accountAgeRaw (env : Env) (u : User) : ℚ :=
  match u.created_at with
  | some created => accountAgePoints ((env.now - created).fdiv 86400)
  | none => 0

/-- Total readme category value: sum of per-repo contributions over the
first 5 repositories. -/
def readmePointsOf (env : Env) : ℕ :=
  ((env.repos.take 5).map (readmeContrib env)).sum

/-- Total commit category value: sum of per-repo contributions over the
first 5 repositories. -/
def commitPointsOf (env : Env) : ℕ :=
  ((env.repos.take 5).map (commitContrib env)).sum

/-- PR/issue category value: `pr_count * 2 + issues_count`. -/
def prIssuesPointsOf (env : Env) : ℕ :=
  (analyze_pull_requests_and_issues env.now env.events).1 * 2
    + (analyze_pull_requests_and_issues env.now env.events).2

/-- Bio/blog category value: flat 5 when the bio or the blog is truthy. -/
def bioBlogPoints (u : User) : ℕ :=
  if truthy u.bio || truthy u.blog then 5 else 0

/-- AI/crypto category value: +3 per raised flag. -/
def aiCryptoPointsOf (env : Env) : ℕ :=
  (if (detect_languages env.repos).2.1 then 3 else 0)
    + (if (detect_languages env.repos).2.2 then 3 else 0)

/-- The base score: sum of the six category contributions. -/
def baseScoreOf (env : Env) (u : User) : ℚ :=
  accountAgeRaw env u + readmePointsOf env + commitPointsOf env
    + prIssuesPointsOf env + bioBlogPoints u + aiCryptoPointsOf env

/-- All warnings emitted by the per-repo loop, in emission order. -/
def warningsOf (env : Env) : List String :=
  ((env.repos.take 5).map (warnContrib env)).flatten

/-- Sum of the six entries of a score breakdown, as a rational. -/
def breakdownSum (b : ScoreBreakdown) : ℚ :=
  b.account_age_points + b.readme_points + b.commit_points
    + b.pr_issues_points + b.profile_bio_blog_points + b.ai_crypto_points

/-- Well-formedness of an environment: a recorded account-creation time does
not lie in the future of the analysis time.  (GitHub only serves creation
times in the past; a future one would make the age, and with it the score,
negative.) -/
def envWF (env : Env) : Prop :=
  ∀ u, env.user = some u → ∀ c, u.created_at = some c → c ≤ env.now

/-- Per-repo topic-set hit against a keyword list. -/
def topicHit (kws : List String) (r : Repo) : Bool :=
  kws.any (fun kw => (r.topics.map strLower).contains kw)

/-- Per-repo description-substring hit against a keyword list. -/
def descHit (kws : List String) (r : Repo) : Bool :=
  kws.any (fun kw => strContains (strLower (r.description.getD (""))) kw)

/-- A repository hits a keyword list via its topics or its description. -/
def repoHit (kws : List String) (r : Repo) : Bool :=
  topicHit kws r || descHit kws r

/-! ### Concrete sample data for witnesses. -/

/-- A minimal user record: found, no creation date, nothing set. -/
def blankUser : User := ⟨none, none, none, none, none⟩

/-- A user created at the epoch. -/
def epochUser : User := ⟨some 0, none, none, none, none⟩

/-- A sample repository with no metadata. -/
def bareRepo : Repo := ⟨"r1", none, [], none⟩

/-- A sample environment: one repository, every per-repo fetch fails, no
events, analysis time one day after the epoch. -/
def sampleEnv : Env :=
  { user := some epochUser
    repos := [bareRepo]
    readme := fun _ => none
    commits := fun _ => []
    depFile := fun _ _ => none
    events := []
    now := 86400 }

/-- An environment carrying `M + 1` in-window pull-request events and
nothing else; it drives the PR/issue category over any fixed bound. -/
def prFloodEnv (M : ℕ) : Env :=
  { user := some blankUser
    repos := []
    readme := fun _ => none
    commits := fun _ => []
    depFile := fun _ _ => none
    events := List.replicate (M + 1) ⟨0, "PullRequestEvent"⟩
    now := 0 }

/-! ### Counter lemmas. -/

theorem totalOf_cons {α : Type} (p : α × ℕ) (c : List (α × ℕ)) :
    totalOf (p :: c) = p.2 + totalOf c := by
  simp [totalOf]

theorem totalOf_bump {α : Type} [DecidableEq α] (c : List (α × ℕ)) (k : α) :
    totalOf (bump c k) = totalOf c + 1 := by
  induction c with
  | nil => simp [bump, totalOf]
  | cons p rest ih =>
    obtain ⟨k2, n⟩ := p
    by_cases h : k2 = k
    · simp [bump, h, totalOf_cons]
      omega
    · simp [bump, h, totalOf_cons, ih]
      omega

theorem mem_keys_bump {α : Type} [DecidableEq α] (c : List (α × ℕ)) (k m : α) :
    m ∈ (bump c k).map Prod.fst ↔ m ∈ c.map Prod.fst ∨ m = k := by
  induction c with
  | nil => simp [bump]
  | cons p rest ih =>
    obtain ⟨k2, n⟩ := p
    by_cases h : k2 = k
    · subst h
      simp [bump]
      tauto
    · simp [bump, h, ih]
      tauto

theorem nodup_keys_bump {α : Type} [DecidableEq α] (c : List (α × ℕ)) (k : α)
    (h : (c.map Prod.fst).Nodup) : ((bump c k).map Prod.fst).Nodup := by
  induction c with
  | nil => simp [bump]
  | cons p rest ih =>
    obtain ⟨k2, n⟩ := p
    simp only [List.map_cons, List.nodup_cons] at h
    by_cases hk : k2 = k
    · subst hk
      simpa [bump] using h
    · simp only [bump, hk, if_false, List.map_cons, List.nodup_cons]
      refine ⟨?_, ih h.2⟩
      intro hmem
      rw [mem_keys_bump] at hmem
      rcases hmem with h1 | h1
      · exact h.1 h1
      · exact hk h1

theorem totalOf_foldl_bump {α : Type} [DecidableEq α] :
    ∀ (xs : List α) (c : List (α × ℕ)),
      totalOf (xs.foldl bump c) = totalOf c + xs.length := by
  intro xs
  induction xs with
  | nil => intro c; simp
  | cons x xs ih =>
    intro c
    rw [List.foldl_cons, ih, totalOf_bump]
    simp
    omega

theorem mem_keys_foldl_bump {α : Type} [DecidableEq α] :
    ∀ (xs : List α) (c : List (α × ℕ)) (m : α),
      m ∈ (xs.foldl bump c).map Prod.fst ↔ m ∈ c.map Prod.fst ∨ m ∈ xs := by
  intro xs
  induction xs with
  | nil => intro c m; simp
  | cons x xs ih =>
    intro c m
    rw [List.foldl_cons, ih, mem_keys_bump]
    simp
    tauto

theorem nodup_keys_foldl_bump {α : Type} [DecidableEq α] :
    ∀ (xs : List α) (c : List (α × ℕ)),
      (c.map Prod.fst).Nodup → ((xs.foldl bump c).map Prod.fst).Nodup := by
  intro xs
  induction xs with
  | nil => intro c h; simpa using h
  | cons x xs ih =>
    intro c h
    rw [List.foldl_cons]
    exact ih _ (nodup_keys_bump _ _ h)

theorem length_foldl_bump_eq_dedup {α : Type} [DecidableEq α] (xs : List α) :
    (xs.foldl bump ([] : List (α × ℕ))).length = xs.dedup.length := by
  have h1 : ((xs.foldl bump ([] : List (α × ℕ))).map Prod.fst).Nodup :=
    nodup_keys_foldl_bump xs [] (by simp)
  have h2 : ∀ m, m ∈ (xs.foldl bump ([] : List (α × ℕ))).map Prod.fst ↔ m ∈ xs := by
    intro m
    rw [mem_keys_foldl_bump]
    simp
  calc (xs.foldl bump ([] : List (α × ℕ))).length
      = ((xs.foldl bump ([] : List (α × ℕ))).map Prod.fst).length := by
        rw [List.length_map]
    _ = ((xs.foldl bump ([] : List (α × ℕ))).map Prod.fst).toFinset.card :=
        (List.toFinset_card_of_nodup h1).symm
    _ = xs.toFinset.card := by
        congr 1
        ext m
        simp only [List.mem_toFinset]
        exact h2 m
    _ = xs.dedup.length := List.card_toFinset xs

/-! ### Commit-frequency lemmas. -/

theorem dayCounts_eq_foldl_map (cs : List Commit) :
    dayCounts cs = (cs.map dayKey).foldl bump [] := by
  unfold dayCounts
  rw [List.foldl_map]

theorem dayCounts_length (cs : List Commit) :
    (dayCounts cs).length = distinctDays cs := by
  rw [dayCounts_eq_foldl_map, length_foldl_bump_eq_dedup]
  rfl

theorem dayCounts_total (cs : List Commit) :
    totalOf (dayCounts cs) = cs.length := by
  rw [dayCounts_eq_foldl_map, totalOf_foldl_bump]
  simp [totalOf]

theorem analyze_commit_frequency_fst (cs : List Commit) :
    (analyze_commit_frequency cs).1 = dayCounts cs := by
  simp only [analyze_commit_frequency]
  split_ifs <;> rfl

theorem analyze_commit_frequency_susp (cs : List Commit) :
    (analyze_commit_frequency cs).2 = true ↔
      (distinctDays cs = 1 ∧ 10 < cs.length)
        ∨ (distinctDays cs < 5 ∧ cs.length < 20) := by
  simp only [analyze_commit_frequency]
  rw [show (dayCounts cs).length = distinctDays cs from dayCounts_length cs]
  rw [show totalOf (dayCounts cs) = cs.length from dayCounts_total cs]
  split_ifs with h1 h2 <;> simp_all

/-! ### Language / keyword detection lemmas. -/

theorem detectStep_snd (st : List (String × ℕ) × Bool × Bool) (r : Repo) :
    (detectStep st r).2.1 = (st.2.1 || repoHit AI_KEYWORDS r)
      ∧ (detectStep st r).2.2 = (st.2.2 || repoHit CRYPTO_KEYWORDS r) := by
  simp [detectStep, repoHit, topicHit, descHit, Bool.or_assoc]

theorem detectStep_fst (st : List (String × ℕ) × Bool × Bool) (r : Repo) :
    (detectStep st r).1 =
      match r.language with
      | some l => bump st.1 l
      | none => st.1 := by
  simp [detectStep]

theorem detect_foldl_ai :
    ∀ (rs : List Repo) (st : List (String × ℕ) × Bool × Bool),
      (rs.foldl detectStep st).2.1 = (st.2.1 || rs.any (repoHit AI_KEYWORDS)) := by
  intro rs
  induction rs with
  | nil => intro st; simp
  | cons r rs ih =>
    intro st
    rw [List.foldl_cons, ih]
    rw [(detectStep_snd st r).1]
    simp [Bool.or_assoc]

theorem detect_foldl_crypto :
    ∀ (rs : List Repo) (st : List (String × ℕ) × Bool × Bool),
      (rs.foldl detectStep st).2.2 = (st.2.2 || rs.any (repoHit CRYPTO_KEYWORDS)) := by
  intro rs
  induction rs with
  | nil => intro st; simp
  | cons r rs ih =>
    intro st
    rw [List.foldl_cons, ih]
    rw [(detectStep_snd st r).2]
    simp [Bool.or_assoc]

theorem detect_foldl_keys :
    ∀ (rs : List Repo) (st : List (String × ℕ) × Bool × Bool) (m : String),
      m ∈ (rs.foldl detectStep st).1.map Prod.fst ↔
        m ∈ st.1.map Prod.fst ∨ ∃ r ∈ rs, r.language = some m := by
  intro rs
  induction rs with
  | nil => intro st m; simp
  | cons r rs ih =>
    intro st m
    rw [List.foldl_cons, ih, detectStep_fst]
    cases hl : r.language with
    | none => simp [hl]
    | some l =>
      rw [mem_keys_bump]
      constructor
      · rintro ((h | h) | ⟨r2, hr2, hlang⟩)
        · exact Or.inl h
        · subst h
          exact Or.inr ⟨r, List.mem_cons_self r rs, hl⟩
        · exact Or.inr ⟨r2, List.mem_cons_of_mem r hr2, hlang⟩
      · rintro (h | ⟨r2, hr2, hlang⟩)
        · exact Or.inl (Or.inl h)
        · rcases List.mem_cons.1 hr2 with h2 | h2
          · subst h2
            rw [hl] at hlang
            injection hlang with h3
            exact Or.inl (Or.inr h3.symm)
          · exact Or.inr ⟨r2, h2, hlang⟩

theorem contains_eq_mem {l : List String} {a : String} :
    l.contains a = true ↔ a ∈ l := by
  simp

theorem detect_languages_ai (rs : List Repo) :
    (detect_languages rs).2.1 = true ↔
      (∃ r ∈ rs, repoHit AI_KEYWORDS r = true)
        ∨ ∃ l ∈ AI_LANGUAGES, ∃ r ∈ rs, r.language = some l := by
  have hkeys : ∀ m : String,
      m ∈ (rs.foldl detectStep ([], false, false)).1.map Prod.fst ↔
        ∃ r ∈ rs, r.language = some m := by
    intro m
    rw [detect_foldl_keys]
    simp
  simp only [detect_languages]
  rw [detect_foldl_ai]
  simp only [Bool.false_or, Bool.or_eq_true, List.any_eq_true, contains_eq_mem, hkeys]

theorem detect_languages_crypto (rs : List Repo) :
    (detect_languages rs).2.2 = true ↔
      (∃ r ∈ rs, repoHit CRYPTO_KEYWORDS r = true)
        ∨ ∃ l ∈ CRYPTO_LANGUAGES, ∃ r ∈ rs, r.language = some l := by
  have hkeys : ∀ m : String,
      m ∈ (rs.foldl detectStep ([], false, false)).1.map Prod.fst ↔
        ∃ r ∈ rs, r.language = some m := by
    intro m
    rw [detect_foldl_keys]
    simp
  simp only [detect_languages]
  rw [detect_foldl_crypto]
  simp only [Bool.false_or, Bool.or_eq_true, List.any_eq_true, contains_eq_mem, hkeys]

/-! ### Pull-request / issue counting lemmas. -/

theorem prStep_foldl (cutoff : ℤ) :
    ∀ (events : List Event) (acc : ℕ × ℕ),
      events.foldl (prStep cutoff) acc =
        (acc.1 + events.countP
            (fun e => decide (cutoff ≤ e.created_at) && decide (e.type = ("PullRequestEvent"))),
         acc.2 + events.countP
            (fun e => decide (cutoff ≤ e.created_at) && decide (e.type = ("IssuesEvent")))) := by
  intro events
  induction events with
  | nil => intro acc; simp
  | cons e es ih =>
    intro acc
    rw [List.foldl_cons, ih]
    simp only [List.countP_cons]
    by_cases h1 : e.created_at < cutoff
    · have h2 : ¬ (cutoff ≤ e.created_at) := by omega
      simp [prStep, h1, h2]
    · have h2 : cutoff ≤ e.created_at := by omega
      by_cases h3 : e.type = ("PullRequestEvent")
      · have h4 : ¬ (e.type = ("IssuesEvent")) := by
          rw [h3]
          intro hcon
          exact absurd hcon (by decide)
        simp [prStep, h1, h2, h3, h4]
        omega
      · by_cases h5 : e.type = ("IssuesEvent")
        · simp [prStep, h1, h2, h3, h5]
          omega
        · simp [prStep, h1, h2, h3, h5]

theorem analyze_pr_counts (now : ℤ) (events : List Event) :
    analyze_pull_requests_and_issues now events =
      (events.countP
          (fun e => decide (now - 30 * 86400 ≤ e.created_at)
            && decide (e.type = ("PullRequestEvent"))),
       events.countP
          (fun e => decide (now - 30 * 86400 ≤ e.created_at)
            && decide (e.type = ("IssuesEvent")))) := by
  simp only [analyze_pull_requests_and_issues]
  rw [prStep_foldl]
  simp

/-! ### Per-repo loop lemmas. -/

theorem processRepo_eq (env : Env) (acc : RepoAcc) (r : Repo) :
    processRepo env acc r =
      ⟨acc.readme_score + readmeContrib env r,
       acc.commit_score + commitContrib env r,
       acc.readme_points + readmeContrib env r,
       acc.commit_points + commitContrib env r,
       acc.warnings ++ warnContrib env r,
       acc.readme_checks ++ checksContrib env r⟩ := by
  simp only [processRepo, readmeContrib, commitContrib, warnContrib, checksContrib]
  by_cases h1 : is_deep_readme (env.readme r) <;>
    by_cases h2 : (analyze_commit_frequency (env.commits r)).2 <;>
      by_cases h3 : (check_requirements_files env r).isEmpty <;>
        simp [h1, h2, h3]

theorem foldl_processRepo (env : Env) :
    ∀ (rs : List Repo) (acc : RepoAcc),
      rs.foldl (processRepo env) acc =
        ⟨acc.readme_score + (rs.map (readmeContrib env)).sum,
         acc.commit_score + (rs.map (commitContrib env)).sum,
         acc.readme_points + (rs.map (readmeContrib env)).sum,
         acc.commit_points + (rs.map (commitContrib env)).sum,
         acc.warnings ++ (rs.map (warnContrib env)).flatten,
         acc.readme_checks ++ (rs.map (checksContrib env)).flatten⟩ := by
  intro rs
  induction rs with
  | nil => intro acc; simp
  | cons r rs ih =>
    intro acc
    rw [List.foldl_cons, processRepo_eq, ih]
    simp [add_assoc]

theorem repoLoop_acc (env : Env) :
    (env.repos.take 5).foldl (processRepo env) initAcc =
      ⟨readmePointsOf env, commitPointsOf env, readmePointsOf env,
       commitPointsOf env, warningsOf env, ((env.repos.take 5).map (checksContrib env)).flatten⟩ := by
  rw [foldl_processRepo]
  simp [initAcc, readmePointsOf, commitPointsOf, warningsOf]

/-! ### Field lemmas for the analysis result. -/

theorem analysisBody_breakdown (env : Env) (u : User) :
    (analysisBody env u).score_breakdown =
      ⟨round2 (accountAgeRaw env u), readmePointsOf env, commitPointsOf env,
       prIssuesPointsOf env, bioBlogPoints u, aiCryptoPointsOf env⟩ := by
  simp only [analysisBody, repoLoop_acc, accountAgeRaw, prIssuesPointsOf,
    bioBlogPoints, aiCryptoPointsOf]

theorem analysisBody_score (env : Env) (u : User) :
    (analysisBody env u).score = round2 (min (baseScoreOf env u) 30 / 30 * 100) := by
  simp only [analysisBody, repoLoop_acc, baseScoreOf, accountAgeRaw,
    prIssuesPointsOf, bioBlogPoints, aiCryptoPointsOf]

theorem analysisBody_warnings (env : Env) (u : User) :
    (analysisBody env u).warnings = warningsOf env := by
  simp only [analysisBody, repoLoop_acc]

theorem analysisBody_flags (env : Env) (u : User) :
    (analysisBody env u).has_ai = (detect_languages env.repos).2.1
      ∧ (analysisBody env u).has_crypto = (detect_languages env.repos).2.2
      ∧ (analysisBody env u).pull_requests_30d
          = (analyze_pull_requests_and_issues env.now env.events).1
      ∧ (analysisBody env u).issues_30d
          = (analyze_pull_requests_and_issues env.now env.events).2 := by
  constructor
  · rfl
  constructor
  · rfl
  constructor
  · rfl
  · rfl

/-! ### Inversion lemmas for the orchestrator. -/

theorem compute_ok_iff (env : Env) (r : AnalysisResult) :
    compute_profile_analysis env = .ok r ↔
      ∃ u, env.user = some u ∧ u.message ≠ some ("Not Found")
        ∧ r = analysisBody env u := by
  unfold compute_profile_analysis
  cases hu : env.user with
  | none => simp
  | some u =>
    by_cases hm : u.message = some ("Not Found") <;> simp [hm, eq_comm]

theorem compute_error_iff (env : Env) :
    compute_profile_analysis env = .error ("User not found") ↔
      env.user = none ∨ ∃ u, env.user = some u ∧ u.message = some ("Not Found") := by
  unfold compute_profile_analysis
  cases hu : env.user with
  | none => simp
  | some u =>
    by_cases hm : u.message = some ("Not Found") <;> simp [hm]

/-! ### Rounding and ramp arithmetic. -/

theorem round2_mono {q r : ℚ} (h : q ≤ r) : round2 q ≤ round2 r := by
  unfold round2
  have h1 : (⌊q * 100 + 1 / 2⌋ : ℤ) ≤ ⌊r * 100 + 1 / 2⌋ :=
    Int.floor_le_floor (by linarith)
  have h2 : ((⌊q * 100 + 1 / 2⌋ : ℤ) : ℚ) ≤ ((⌊r * 100 + 1 / 2⌋ : ℤ) : ℚ) := by
    exact_mod_cast h1
  linarith

theorem round2_zero : round2 0 = 0 := by
  norm_num [round2]

theorem round2_ten : round2 10 = 10 := by
  norm_num [round2]

theorem round2_hundred : round2 100 = 100 := by
  norm_num [round2]

theorem round2_nonneg {q : ℚ} (h : 0 ≤ q) : 0 ≤ round2 q := by
  have := round2_mono h
  rwa [round2_zero] at this

theorem round2_le_hundred {q : ℚ} (h : q ≤ 100) : round2 q ≤ 100 := by
  have := round2_mono h
  rwa [round2_hundred] at this

theorem round2_le_ten {q : ℚ} (h : q ≤ 10) : round2 q ≤ 10 := by
  have := round2_mono h
  rwa [round2_ten] at this

theorem accountAgePoints_nonneg {d : ℤ} (h : 0 ≤ d) : 0 ≤ accountAgePoints d := by
  unfold accountAgePoints
  split_ifs with h1
  · norm_num
  · have hd : (0 : ℚ) ≤ (d : ℚ) := by exact_mod_cast h
    have := div_nonneg hd (by norm_num : (0:ℚ) ≤ 365)
    linarith

theorem accountAgePoints_le_ten (d : ℤ) : accountAgePoints d ≤ 10 := by
  unfold accountAgePoints
  split_ifs with h1
  · norm_num
  · push_neg at h1
    have hd : (d : ℚ) ≤ 365 := by exact_mod_cast h1
    linarith

theorem accountAgePoints_mono {d e : ℤ} (h : d ≤ e) :
    accountAgePoints d ≤ accountAgePoints e := by
  unfold accountAgePoints
  have hde : (d : ℚ) ≤ (e : ℚ) := by exact_mod_cast h
  split_ifs with h1 h2 h2
  · norm_num
  · exfalso
    omega
  · push_neg at h1
    have hd : (d : ℚ) ≤ 365 := by exact_mod_cast h1
    linarith
  · linarith

theorem accountAgeRaw_nonneg (env : Env) (u : User)
    (hu : env.user = some u) (hwf : envWF env) : 0 ≤ accountAgeRaw env u := by
  unfold accountAgeRaw
  cases hc : u.created_at with
  | none => norm_num
  | some c =>
    have hcle := hwf u hu c hc
    have hd : (0:ℤ) ≤ (env.now - c).fdiv 86400 :=
      Int.fdiv_nonneg (by omega) (by norm_num)
    exact accountAgePoints_nonneg hd

theorem accountAgeRaw_le_ten (env : Env) (u : User) :
    accountAgeRaw env u ≤ 10 := by
  unfold accountAgeRaw
  cases u.created_at with
  | none => norm_num
  | some c => exact accountAgePoints_le_ten _

/-! ### Category bounds. -/

theorem readmeContrib_le (env : Env) (r : Repo) : readmeContrib env r ≤ 2 := by
  unfold readmeContrib
  split_ifs <;> omega

theorem commitContrib_le (env : Env) (r : Repo) : commitContrib env r ≤ 5 := by
  simp only [commitContrib]
  split_ifs
  · omega
  · exact min_le_right _ _

theorem readmePointsOf_le (env : Env) : readmePointsOf env ≤ 10 := by
  unfold readmePointsOf
  have h1 : ∀ x ∈ (env.repos.take 5).map (readmeContrib env), x ≤ 2 := by
    intro x hx
    obtain ⟨r, _, rfl⟩ := List.mem_map.1 hx
    exact readmeContrib_le env r
  have h2 := List.sum_le_card_nsmul _ 2 h1
  have h3 : ((env.repos.take 5).map (readmeContrib env)).length ≤ 5 := by
    rw [List.length_map, List.length_take]
    exact min_le_left _ _
  simp only [smul_eq_mul] at h2
  omega

theorem commitPointsOf_le (env : Env) : commitPointsOf env ≤ 25 := by
  unfold commitPointsOf
  have h1 : ∀ x ∈ (env.repos.take 5).map (commitContrib env), x ≤ 5 := by
    intro x hx
    obtain ⟨r, _, rfl⟩ := List.mem_map.1 hx
    exact commitContrib_le env r
  have h2 := List.sum_le_card_nsmul _ 5 h1
  have h3 : ((env.repos.take 5).map (commitContrib env)).length ≤ 5 := by
    rw [List.length_map, List.length_take]
    exact min_le_left _ _
  simp only [smul_eq_mul] at h2
  omega

theorem bioBlogPoints_le (u : User) : bioBlogPoints u ≤ 5 := by
  unfold bioBlogPoints
  split_ifs <;> omega

theorem aiCryptoPointsOf_le (env : Env) : aiCryptoPointsOf env ≤ 6 := by
  unfold aiCryptoPointsOf
  split_ifs <;> omega

theorem baseScoreOf_nonneg (env : Env) (u : User)
    (hu : env.user = some u) (hwf : envWF env) : 0 ≤ baseScoreOf env u := by
  unfold baseScoreOf
  have h1 := accountAgeRaw_nonneg env u hu hwf
  have h2 : (0:ℚ) ≤ (readmePointsOf env : ℚ) := Nat.cast_nonneg _
  have h3 : (0:ℚ) ≤ (commitPointsOf env : ℚ) := Nat.cast_nonneg _
  have h4 : (0:ℚ) ≤ (prIssuesPointsOf env : ℚ) := Nat.cast_nonneg _
  have h5 : (0:ℚ) ≤ (bioBlogPoints u : ℚ) := Nat.cast_nonneg _
  have h6 : (0:ℚ) ≤ (aiCryptoPointsOf env : ℚ) := Nat.cast_nonneg _
  linarith

/-! ### Claim theorems. -/

/-- Claim C1: for every well-formed set of inputs, the final score returned
by `compute_profile_analysis` equals `min(base_score, 30) / 30 * 100`
rounded to 2 decimal places, where the base score is the sum of the six
category contributions, and this final score lies in the closed interval
[0, 100]. -/
theorem claim_C1_final_score (env : Env) (u : User) (r : AnalysisResult)
    (hwf : envWF env) (hok : compute_profile_analysis env = .ok r)
    (hu : env.user = some u) :
    r.score = round2 (min (baseScoreOf env u) 30 / 30 * 100)
      ∧ 0 ≤ r.score ∧ r.score ≤ 100 := by
  obtain ⟨u2, hu2, _, hr⟩ := (compute_ok_iff env r).1 hok
  rw [hu] at hu2
  injection hu2 with hu3
  subst hu3
  subst hr
  refine ⟨analysisBody_score env u, ?_, ?_⟩
  · rw [analysisBody_score]
    apply round2_nonneg
    have hbase := baseScoreOf_nonneg env u hu hwf
    have hmin : 0 ≤ min (baseScoreOf env u) 30 := le_min hbase (by norm_num)
    have hdiv : 0 ≤ min (baseScoreOf env u) 30 / 30 :=
      div_nonneg hmin (by norm_num)
    linarith
  · rw [analysisBody_score]
    apply round2_le_hundred
    have hmin : min (baseScoreOf env u) 30 ≤ 30 := min_le_right _ _
    have hdiv : min (baseScoreOf env u) 30 / 30 ≤ 1 := by
      rw [div_le_one (by norm_num : (0:ℚ) < 30)]
      exact hmin
    linarith

/-- Witness for C1: the sample environment is well-formed, is analysed
successfully, and its score obeys the stated formula and bounds. -/
theorem claim_C1_witness :
    (analysisBody sampleEnv epochUser).score
        = round2 (min (baseScoreOf sampleEnv epochUser) 30 / 30 * 100)
      ∧ 0 ≤ (analysisBody sampleEnv epochUser).score
      ∧ (analysisBody sampleEnv epochUser).score ≤ 100 :=
  claim_C1_final_score sampleEnv epochUser (analysisBody sampleEnv epochUser)
    (by
      intro u hu c hc
      simp only [sampleEnv, Option.some.injEq] at hu
      subst hu
      simp only [epochUser, Option.some.injEq] at hc
      subst hc
      decide)
    rfl rfl

/-- Counterexample to claim C2: the PR/issue category of the score breakdown
is not capped by any fixed per-category maximum before summation — for any
candidate bound there is an input whose `pr_issues_points` entry exceeds it. -/
theorem claim_C2_counterexample :
    ¬ ∃ M : ℕ, ∀ (env : Env) (r : AnalysisResult),
        compute_profile_analysis env = .ok r →
          r.score_breakdown.pr_issues_points ≤ M := by
  rintro ⟨M, hM⟩
  have hok : compute_profile_analysis (prFloodEnv M)
      = .ok (analysisBody (prFloodEnv M) blankUser) := rfl
  have hle := hM _ _ hok
  rw [analysisBody_breakdown] at hle
  have hev : (prFloodEnv M).events
      = List.replicate (M + 1) (⟨0, ("PullRequestEvent")⟩ : Event) := rfl
  have hnow : (prFloodEnv M).now = 0 := rfl
  have h1 : (analyze_pull_requests_and_issues (prFloodEnv M).now (prFloodEnv M).events).1
      = M + 1 := by
    rw [analyze_pr_counts, hev, hnow, List.countP_replicate]
    norm_num
  have h2 : (analyze_pull_requests_and_issues (prFloodEnv M).now (prFloodEnv M).events).2
      = 0 := by
    rw [analyze_pr_counts, hev, hnow, List.countP_replicate]
    norm_num
    decide
  simp only [prIssuesPointsOf, h1, h2] at hle
  omega

/-- Claim C2 (amended): every category entry of the score breakdown is
non-negative; the account-age, readme, commit, bio/blog and AI/crypto
categories are capped at 10, 10, 25, 5 and 6 points respectively before
summation, but the PR/issue category equals `pr_count * 2 + issues_count`
with no per-category cap. -/
theorem claim_C2_amended (env : Env) (u : User) (r : AnalysisResult)
    (hwf : envWF env) (hok : compute_profile_analysis env = .ok r)
    (hu : env.user = some u) :
    0 ≤ r.score_breakdown.account_age_points
      ∧ r.score_breakdown.account_age_points ≤ 10
      ∧ r.score_breakdown.readme_points ≤ 10
      ∧ r.score_breakdown.commit_points ≤ 25
      ∧ r.score_breakdown.profile_bio_blog_points ≤ 5
      ∧ r.score_breakdown.ai_crypto_points ≤ 6
      ∧ r.score_breakdown.pr_issues_points
          = (analyze_pull_requests_and_issues env.now env.events).1 * 2
            + (analyze_pull_requests_and_issues env.now env.events).2 := by
  obtain ⟨u2, hu2, _, hr⟩ := (compute_ok_iff env r).1 hok
  rw [hu] at hu2
  injection hu2 with hu3
  subst hu3
  subst hr
  rw [analysisBody_breakdown]
  refine ⟨?_, ?_, ?_, ?_, ?_, ?_, rfl⟩
  · exact round2_nonneg (accountAgeRaw_nonneg env u hu hwf)
  · exact round2_le_ten (accountAgeRaw_le_ten env u)
  · exact readmePointsOf_le env
  · exact commitPointsOf_le env
  · exact bioBlogPoints_le u
  · exact aiCryptoPointsOf_le env

/-- Witness for the amended C2, at the sample environment. -/
theorem claim_C2_witness :
    0 ≤ (analysisBody sampleEnv epochUser).score_breakdown.account_age_points
      ∧ (analysisBody sampleEnv epochUser).score_breakdown.account_age_points ≤ 10
      ∧ (analysisBody sampleEnv epochUser).score_breakdown.readme_points ≤ 10
      ∧ (analysisBody sampleEnv epochUser).score_breakdown.commit_points ≤ 25
      ∧ (analysisBody sampleEnv epochUser).score_breakdown.profile_bio_blog_points ≤ 5
      ∧ (analysisBody sampleEnv epochUser).score_breakdown.ai_crypto_points ≤ 6
      ∧ (analysisBody sampleEnv epochUser).score_breakdown.pr_issues_points
          = (analyze_pull_requests_and_issues sampleEnv.now sampleEnv.events).1 * 2
            + (analyze_pull_requests_and_issues sampleEnv.now sampleEnv.events).2 :=
  claim_C2_amended sampleEnv epochUser (analysisBody sampleEnv epochUser)
    (by
      intro u hu c hc
      simp only [sampleEnv, Option.some.injEq] at hu
      subst hu
      simp only [epochUser, Option.some.injEq] at hc
      subst hc
      decide)
    rfl rfl

/-- Claim C5: the account-age category awards exactly 10 points beyond 365
days of age, awards `(age_days / 365) * 10` points at or below 365 days, is
monotonically increasing in the age, and is continuous at the 365-day
boundary (it equals 10 at exactly 365 days). -/
theorem claim_C5_account_age (d : ℤ) :
    (365 < d → accountAgePoints d = 10)
      ∧ (d ≤ 365 → accountAgePoints d = (d : ℚ) / 365 * 10)
      ∧ accountAgePoints 365 = 10
      ∧ ∀ e : ℤ, d ≤ e → accountAgePoints d ≤ accountAgePoints e := by
  refine ⟨?_, ?_, ?_, ?_⟩
  · intro h
    unfold accountAgePoints
    rw [if_pos h]
  · intro h
    unfold accountAgePoints
    rw [if_neg (by omega)]
  · unfold accountAgePoints
    norm_num
  · intro e he
    exact accountAgePoints_mono he

/-- Witness for C5: concrete evaluations of the ramp at 400, 100 and the
monotonicity between 100 and 200 days. -/
theorem claim_C5_witness :
    accountAgePoints 400 = 10
      ∧ accountAgePoints 100 = (100 : ℚ) / 365 * 10
      ∧ accountAgePoints 100 ≤ accountAgePoints 200 :=
  ⟨(claim_C5_account_age 400).1 (by norm_num),
   (claim_C5_account_age 100).2.1 (by norm_num),
   (claim_C5_account_age 100).2.2.2 200 (by norm_num)⟩

/-- Claim C6: the PR/issue counter counts exactly the `PullRequestEvent` /
`IssuesEvent` entries created at or after `now - 30 days`; an event exactly
at the cutoff instant is included, a strictly older one is excluded; and the
category then contributes `pr_count * 2 + issues_count` points. -/
theorem claim_C6_window :
    (∀ (now : ℤ) (events : List Event),
        analyze_pull_requests_and_issues now events =
          (events.countP (fun e => decide (now - 30 * 86400 ≤ e.created_at)
              && decide (e.type = ("PullRequestEvent"))),
           events.countP (fun e => decide (now - 30 * 86400 ≤ e.created_at)
              && decide (e.type = ("IssuesEvent")))))
      ∧ (∀ now : ℤ,
          (analyze_pull_requests_and_issues now
            [⟨now - 30 * 86400, ("PullRequestEvent")⟩]).1 = 1)
      ∧ (∀ now : ℤ,
          (analyze_pull_requests_and_issues now
            [⟨now - 30 * 86400 - 1, ("PullRequestEvent")⟩]).1 = 0)
      ∧ (∀ (env : Env) (r : AnalysisResult),
          compute_profile_analysis env = .ok r →
            r.pull_requests_30d = (analyze_pull_requests_and_issues env.now env.events).1
              ∧ r.issues_30d = (analyze_pull_requests_and_issues env.now env.events).2
              ∧ r.score_breakdown.pr_issues_points
                  = r.pull_requests_30d * 2 + r.issues_30d) := by
  refine ⟨analyze_pr_counts, ?_, ?_, ?_⟩
  · intro now
    simp [analyze_pull_requests_and_issues, prStep]
  · intro now
    simp [analyze_pull_requests_and_issues, prStep]
  · intro env r hok
    obtain ⟨u2, hu2, _, hr⟩ := (compute_ok_iff env r).1 hok
    subst hr
    refine ⟨rfl, rfl, ?_⟩
    rw [analysisBody_breakdown]
    rfl

/-- Witness for C6: the integration conjunct applied to the sample
environment. -/
theorem claim_C6_witness :
    (analysisBody sampleEnv epochUser).pull_requests_30d
        = (analyze_pull_requests_and_issues sampleEnv.now sampleEnv.events).1
      ∧ (analysisBody sampleEnv epochUser).issues_30d
        = (analyze_pull_requests_and_issues sampleEnv.now sampleEnv.events).2
      ∧ (analysisBody sampleEnv epochUser).score_breakdown.pr_issues_points
        = (analysisBody sampleEnv epochUser).pull_requests_30d * 2
          + (analysisBody sampleEnv epochUser).issues_30d :=
  claim_C6_window.2.2.2 sampleEnv (analysisBody sampleEnv epochUser) rfl

/-- Claim C3: a commit list is flagged suspicious exactly when it falls on
one distinct UTC calendar day with more than 10 commits, or on fewer than 5
distinct days with fewer than 20 commits; a non-suspicious repository
contributes `min(distinct_day_count, 5)` commit points, a suspicious one
contributes 0 and a warning is appended. -/
theorem claim_C3_commit_suspicion :
    (∀ cs : List Commit,
        (analyze_commit_frequency cs).2 = true ↔
          (distinctDays cs = 1 ∧ 10 < cs.length)
            ∨ (distinctDays cs < 5 ∧ cs.length < 20))
      ∧ (∀ (env : Env) (r : AnalysisResult) (rp : Repo),
          compute_profile_analysis env = .ok r → rp ∈ env.repos.take 5 →
            (analyze_commit_frequency (env.commits rp)).2 = true →
              suspiciousWarning rp ∈ r.warnings)
      ∧ (∀ (env : Env) (r : AnalysisResult),
          compute_profile_analysis env = .ok r →
            r.score_breakdown.commit_points =
              ((env.repos.take 5).map (fun rp =>
                if (analyze_commit_frequency (env.commits rp)).2 then 0
                else min (distinctDays (env.commits rp)) 5)).sum) := by
  refine ⟨analyze_commit_frequency_susp, ?_, ?_⟩
  · intro env r rp hok hmem hsusp
    obtain ⟨u2, hu2, _, hr⟩ := (compute_ok_iff env r).1 hok
    subst hr
    rw [analysisBody_warnings]
    unfold warningsOf
    rw [List.mem_flatten]
    refine ⟨warnContrib env rp, List.mem_map_of_mem _ hmem, ?_⟩
    unfold warnContrib
    simp [hsusp]
  · intro env r hok
    obtain ⟨u2, hu2, _, hr⟩ := (compute_ok_iff env r).1 hok
    subst hr
    rw [analysisBody_breakdown]
    show commitPointsOf env = _
    unfold commitPointsOf
    have hcongr : ∀ rp ∈ env.repos.take 5,
        commitContrib env rp =
          (fun rp => if (analyze_commit_frequency (env.commits rp)).2 then 0
            else min (distinctDays (env.commits rp)) 5) rp := by
      intro rp _
      simp only [commitContrib]
      rw [analyze_commit_frequency_fst, dayCounts_length]
    rw [List.map_congr_left hcongr]

/-- Witness for C3: the suspicion rule and the integration conjuncts at the
sample environment, whose single repository has an empty commit list. -/
theorem claim_C3_witness :
    ((analyze_commit_frequency [⟨0⟩] ).2 = true ↔
        (distinctDays [⟨0⟩] = 1 ∧ 10 < ([⟨0⟩] : List Commit).length)
          ∨ (distinctDays [⟨0⟩] < 5 ∧ ([⟨0⟩] : List Commit).length < 20))
      ∧ suspiciousWarning bareRepo ∈ (analysisBody sampleEnv epochUser).warnings
      ∧ (analysisBody sampleEnv epochUser).score_breakdown.commit_points =
          ((sampleEnv.repos.take 5).map (fun rp =>
            if (analyze_commit_frequency (sampleEnv.commits rp)).2 then 0
            else min (distinctDays (sampleEnv.commits rp)) 5)).sum :=
  ⟨claim_C3_commit_suspicion.1 [⟨0⟩],
   claim_C3_commit_suspicion.2.1 sampleEnv (analysisBody sampleEnv epochUser)
     bareRepo rfl (by decide) (by decide),
   claim_C3_commit_suspicion.2.2 sampleEnv (analysisBody sampleEnv epochUser) rfl⟩

/-- Claim C4: `is_deep_readme` is false when the text is absent or shorter
than 200 characters, and otherwise true exactly when the lower-cased text
contains one of the fixed keywords; a repository failing the check
contributes 0 readme points and appends a warning naming it, a passing one
contributes exactly 2 points. -/
theorem claim_C4_readme :
    (∀ t : Option String,
        is_deep_readme t = true ↔
          ∃ s, t = some s ∧ 200 ≤ s.data.length
            ∧ ∃ k ∈ readme_keywords, strContains (strLower s) k = true)
      ∧ (∀ (env : Env) (r : AnalysisResult) (rp : Repo),
          compute_profile_analysis env = .ok r → rp ∈ env.repos.take 5 →
            is_deep_readme (env.readme rp) = false →
              shallowWarning rp ∈ r.warnings)
      ∧ (∀ (env : Env) (r : AnalysisResult),
          compute_profile_analysis env = .ok r →
            r.score_breakdown.readme_points =
              ((env.repos.take 5).map (fun rp =>
                if is_deep_readme (env.readme rp) then 2 else 0)).sum) := by
  refine ⟨?_, ?_, ?_⟩
  · intro t
    cases t with
    | none => simp [is_deep_readme]
    | some s =>
      simp only [is_deep_readme]
      by_cases h : (s.data.isEmpty || decide (s.data.length < 200)) = true
      · rw [if_pos h]
        simp only [Bool.or_eq_true, List.isEmpty_iff, decide_eq_true_eq] at h
        constructor
        · intro hf
          simp at hf
        · rintro ⟨s2, hs2, hlen, -⟩
          injection hs2 with h2
          subst h2
          rcases h with he | hlt
          · rw [he] at hlen
            simp at hlen
          · omega
      · rw [if_neg h]
        simp only [Bool.or_eq_true, List.isEmpty_iff, decide_eq_true_eq, not_or] at h
        have hlen : 200 ≤ s.data.length := by
          have := h.2
          omega
        rw [List.any_eq_true]
        constructor
        · rintro ⟨k, hk, hck⟩
          exact ⟨s, rfl, hlen, k, hk, hck⟩
        · rintro ⟨s2, hs2, -, k, hk, hck⟩
          injection hs2 with h2
          subst h2
          exact ⟨k, hk, hck⟩
  · intro env r rp hok hmem hfail
    obtain ⟨u2, hu2, _, hr⟩ := (compute_ok_iff env r).1 hok
    subst hr
    rw [analysisBody_warnings]
    unfold warningsOf
    rw [List.mem_flatten]
    refine ⟨warnContrib env rp, List.mem_map_of_mem _ hmem, ?_⟩
    unfold warnContrib
    simp [hfail]
  · intro env r hok
    obtain ⟨u2, hu2, _, hr⟩ := (compute_ok_iff env r).1 hok
    subst hr
    rw [analysisBody_breakdown]
    show readmePointsOf env = _
    unfold readmePointsOf readmeContrib
    rfl

/-- Witness for C4: the characterisation at a concrete deep README (200
filler characters followed by the keyword setup) and at a short text, plus
the integration conjuncts at the sample environment. -/
theorem claim_C4_witness :
    (is_deep_readme (some (String.mk (List.replicate 200 ('a')) ++ ("setup"))) = true ↔
        ∃ s, some (String.mk (List.replicate 200 ('a')) ++ ("setup")) = some s
          ∧ 200 ≤ s.data.length
          ∧ ∃ k ∈ readme_keywords, strContains (strLower s) k = true)
      ∧ shallowWarning bareRepo ∈ (analysisBody sampleEnv epochUser).warnings
      ∧ (analysisBody sampleEnv epochUser).score_breakdown.readme_points =
          ((sampleEnv.repos.take 5).map (fun rp =>
            if is_deep_readme (sampleEnv.readme rp) then 2 else 0)).sum :=
  ⟨claim_C4_readme.1 (some (String.mk (List.replicate 200 ('a')) ++ ("setup"))),
   claim_C4_readme.2.1 sampleEnv (analysisBody sampleEnv epochUser) bareRepo
     rfl (by decide) rfl,
   claim_C4_readme.2.2 sampleEnv (analysisBody sampleEnv epochUser) rfl⟩

theorem repoHit_iff (kws : List String) (r : Repo) :
    repoHit kws r = true ↔
      (∃ kw ∈ kws, kw ∈ r.topics.map strLower)
        ∨ ∃ kw ∈ kws, strContains (strLower (r.description.getD (""))) kw = true := by
  simp [repoHit, topicHit, descHit, List.any_eq_true, contains_eq_mem]

/-- Claim C7: `detect_languages` works on the full repository list and sets
`has_ai` (resp. `has_crypto`) exactly when some repository's lower-cased
topic set meets the AI (crypto) keyword set, or some lower-cased description
contains an AI (crypto) keyword, or an observed primary language lies in the
fixed AI (crypto) language set; in particular a topic pytorch forces
`has_ai` and a primary language Solidity forces `has_crypto`. -/
theorem claim_C7_detection :
    (∀ repos : List Repo,
        ((detect_languages repos).2.1 = true ↔
            (∃ r ∈ repos, ∃ kw ∈ AI_KEYWORDS, kw ∈ r.topics.map strLower)
              ∨ (∃ r ∈ repos, ∃ kw ∈ AI_KEYWORDS,
                  strContains (strLower (r.description.getD (""))) kw = true)
              ∨ (∃ l ∈ AI_LANGUAGES, ∃ r ∈ repos, r.language = some l))
          ∧ ((detect_languages repos).2.2 = true ↔
              (∃ r ∈ repos, ∃ kw ∈ CRYPTO_KEYWORDS, kw ∈ r.topics.map strLower)
                ∨ (∃ r ∈ repos, ∃ kw ∈ CRYPTO_KEYWORDS,
                    strContains (strLower (r.description.getD (""))) kw = true)
                ∨ (∃ l ∈ CRYPTO_LANGUAGES, ∃ r ∈ repos, r.language = some l)))
      ∧ (∀ (env : Env) (r : AnalysisResult),
          compute_profile_analysis env = .ok r →
            r.has_ai = (detect_languages env.repos).2.1
              ∧ r.has_crypto = (detect_languages env.repos).2.2)
      ∧ (detect_languages [⟨("m"), none, [("pytorch")], none⟩]).2.1 = true
      ∧ (detect_languages [⟨("c"), some ("Solidity"), [], none⟩]).2.2 = true := by
  refine ⟨?_, ?_, by decide, by decide⟩
  · intro repos
    constructor
    · rw [detect_languages_ai]
      simp only [repoHit_iff]
      constructor
      · rintro (⟨r, hr, h | h⟩ | h)
        · exact Or.inl ⟨r, hr, h⟩
        · exact Or.inr (Or.inl ⟨r, hr, h⟩)
        · exact Or.inr (Or.inr h)
      · rintro (⟨r, hr, h⟩ | ⟨r, hr, h⟩ | h)
        · exact Or.inl ⟨r, hr, Or.inl h⟩
        · exact Or.inl ⟨r, hr, Or.inr h⟩
        · exact Or.inr h
    · rw [detect_languages_crypto]
      simp only [repoHit_iff]
      constructor
      · rintro (⟨r, hr, h | h⟩ | h)
        · exact Or.inl ⟨r, hr, h⟩
        · exact Or.inr (Or.inl ⟨r, hr, h⟩)
        · exact Or.inr (Or.inr h)
      · rintro (⟨r, hr, h⟩ | ⟨r, hr, h⟩ | h)
        · exact Or.inl ⟨r, hr, Or.inl h⟩
        · exact Or.inl ⟨r, hr, Or.inr h⟩
        · exact Or.inr h
  · intro env r hok
    obtain ⟨u2, hu2, _, hr⟩ := (compute_ok_iff env r).1 hok
    subst hr
    exact ⟨rfl, rfl⟩

/-- Witness for C7: the integration conjunct at the sample environment. -/
theorem claim_C7_witness :
    (analysisBody sampleEnv epochUser).has_ai
        = (detect_languages sampleEnv.repos).2.1
      ∧ (analysisBody sampleEnv epochUser).has_crypto
        = (detect_languages sampleEnv.repos).2.2 :=
  claim_C7_detection.2.1 sampleEnv (analysisBody sampleEnv epochUser) rfl

/-- Counterexample to claim C8: dependency-file fetch failures do NOT add a
warning.  In the sample environment every dependency-file fetch of the
repository fails, the analysis succeeds, and the complete warnings list of
the result consists of exactly the README warning and the commit warning —
no warning about dependency files appears, and the dependency listings are
empty (the source only logs decode failures; it never appends to the
returned warnings). -/
theorem claim_C8_counterexample :
    compute_profile_analysis sampleEnv = .ok (analysisBody sampleEnv epochUser)
      ∧ sampleEnv.depFile bareRepo ("requirements.txt") = none
      ∧ (analysisBody sampleEnv epochUser).warnings
          = [shallowWarning bareRepo, suspiciousWarning bareRepo]
      ∧ (analysisBody sampleEnv epochUser).readme_checks = [] := by
  refine ⟨rfl, rfl, ?_, rfl⟩
  rw [analysisBody_warnings]
  rfl

/-- Claim C8 (amended): the error marker is returned exactly when the user
lookup fails or indicates absence; otherwise the analysis always completes
with a full result.  A failed README or commit fetch for a repository
degrades that signal to its fallback and appends a warning; a failed
dependency-file fetch degrades silently: it yields the empty token set and
no listing entry, and the warnings of the result never depend on the
dependency-file fetches at all. -/
theorem claim_C8_amended (env : Env) :
    (compute_profile_analysis env = .error ("User not found") ↔
        env.user = none ∨ ∃ u, env.user = some u ∧ u.message = some ("Not Found"))
      ∧ (∀ u, env.user = some u → u.message ≠ some ("Not Found") →
          compute_profile_analysis env = .ok (analysisBody env u))
      ∧ (∀ u rp, env.user = some u → u.message ≠ some ("Not Found") →
          rp ∈ env.repos.take 5 →
            (env.readme rp = none →
              shallowWarning rp ∈ (analysisBody env u).warnings)
              ∧ (env.commits rp = [] →
                  suspiciousWarning rp ∈ (analysisBody env u).warnings))
      ∧ (∀ rp, (∀ fn, env.depFile rp fn = none) →
          check_requirements_files env rp = [] ∧ checksContrib env rp = [])
      ∧ (∀ (u : User) (dep2 : Repo → String → Option String),
          (analysisBody { env with depFile := dep2 } u).warnings
            = (analysisBody env u).warnings) := by
  refine ⟨compute_error_iff env, ?_, ?_, ?_, ?_⟩
  · intro u hu hm
    unfold compute_profile_analysis
    rw [hu]
    simp [hm]
  · intro u rp hu hm hmem
    constructor
    · intro hnone
      rw [analysisBody_warnings]
      unfold warningsOf
      rw [List.mem_flatten]
      refine ⟨warnContrib env rp, List.mem_map_of_mem _ hmem, ?_⟩
      unfold warnContrib
      rw [hnone]
      simp [is_deep_readme]
    · intro hempty
      rw [analysisBody_warnings]
      unfold warningsOf
      rw [List.mem_flatten]
      refine ⟨warnContrib env rp, List.mem_map_of_mem _ hmem, ?_⟩
      unfold warnContrib
      have hsusp : (analyze_commit_frequency (env.commits rp)).2 = true := by
        rw [hempty]
        decide
      simp [hsusp]
  · intro rp hfn
    have hempty : check_requirements_files env rp = [] := by
      simp [check_requirements_files, possible_files, hfn]
    refine ⟨hempty, ?_⟩
    unfold checksContrib
    rw [hempty]
    rfl
  · intro u dep2
    rw [analysisBody_warnings, analysisBody_warnings]
    rfl

/-- Witness for the amended C8: at the sample environment the lookup
succeeds, the failed README and commit fetches of its repository produce
the two warnings, and the failed dependency-file fetches yield the empty
token set. -/
theorem claim_C8_witness :
    compute_profile_analysis sampleEnv = .ok (analysisBody sampleEnv epochUser)
      ∧ shallowWarning bareRepo ∈ (analysisBody sampleEnv epochUser).warnings
      ∧ suspiciousWarning bareRepo ∈ (analysisBody sampleEnv epochUser).warnings
      ∧ check_requirements_files sampleEnv bareRepo = [] := by
  have h := claim_C8_amended sampleEnv
  have h2 := h.2.1 epochUser rfl (by decide)
  have h3 := h.2.2.1 epochUser bareRepo rfl (by decide) (by decide)
  have h4 := h.2.2.2.1 bareRepo (fun fn => rfl)
  exact ⟨h2, h3.1 rfl, h3.2 rfl, h4.1⟩

/-- Claim C9: the empty commit list is classified suspicious (zero distinct
days and zero commits fall under the low-activity rule), so a repository
whose commit fetch returns nothing contributes 0 commit points and appends
a suspicious-commit-pattern warning rather than being treated neutrally. -/
theorem claim_C9_empty_commits :
    analyze_commit_frequency [] = ([], true)
      ∧ (∀ (env : Env) (r : AnalysisResult) (rp : Repo),
          compute_profile_analysis env = .ok r → rp ∈ env.repos.take 5 →
            env.commits rp = [] → suspiciousWarning rp ∈ r.warnings)
      ∧ (∀ (env : Env) (r : AnalysisResult),
          compute_profile_analysis env = .ok r →
            (∀ rp ∈ env.repos.take 5, env.commits rp = []) →
              r.score_breakdown.commit_points = 0) := by
  refine ⟨rfl, ?_, ?_⟩
  · intro env r rp hok hmem hempty
    obtain ⟨u2, hu2, _, hr⟩ := (compute_ok_iff env r).1 hok
    subst hr
    rw [analysisBody_warnings]
    unfold warningsOf
    rw [List.mem_flatten]
    refine ⟨warnContrib env rp, List.mem_map_of_mem _ hmem, ?_⟩
    unfold warnContrib
    have hsusp : (analyze_commit_frequency (env.commits rp)).2 = true := by
      rw [hempty]
      decide
    simp [hsusp]
  · intro env r hok hall
    obtain ⟨u2, hu2, _, hr⟩ := (compute_ok_iff env r).1 hok
    subst hr
    rw [analysisBody_breakdown]
    show commitPointsOf env = 0
    unfold commitPointsOf
    apply List.sum_eq_zero
    intro x hx
    obtain ⟨rp, hrp, rfl⟩ := List.mem_map.1 hx
    have hsusp : (analyze_commit_frequency (env.commits rp)).2 = true := by
      rw [hall rp hrp]
      decide
    simp only [commitContrib]
    simp [hsusp]

/-- Witness for C9: the sample environment, whose only repository has an
empty commit fetch, gets the warning and zero commit points. -/
theorem claim_C9_witness :
    suspiciousWarning bareRepo ∈ (analysisBody sampleEnv epochUser).warnings
      ∧ (analysisBody sampleEnv epochUser).score_breakdown.commit_points = 0 :=
  ⟨claim_C9_empty_commits.2.1 sampleEnv (analysisBody sampleEnv epochUser)
     bareRepo rfl (by decide) rfl,
   claim_C9_empty_commits.2.2 sampleEnv (analysisBody sampleEnv epochUser)
     rfl (by intro rp _; rfl)⟩

/-- Claim C10: the breakdown entry for the account-age category is rounded
to 2 decimals while the base score uses the unrounded value, so for some
inputs the sum of the six breakdown entries differs from the base score
that determines the final normalized score; the sample environment (account
age 1 day) is such an input. -/
theorem claim_C10_rounded_breakdown :
    (∀ (env : Env) (u : User) (r : AnalysisResult),
        compute_profile_analysis env = .ok r → env.user = some u →
          r.score_breakdown.account_age_points = round2 (accountAgeRaw env u))
      ∧ compute_profile_analysis sampleEnv = .ok (analysisBody sampleEnv epochUser)
      ∧ breakdownSum (analysisBody sampleEnv epochUser).score_breakdown
          ≠ baseScoreOf sampleEnv epochUser := by
  refine ⟨?_, rfl, ?_⟩
  · intro env u r hok hu
    obtain ⟨u2, hu2, _, hr⟩ := (compute_ok_iff env r).1 hok
    rw [hu] at hu2
    injection hu2 with hu3
    subst hu3
    subst hr
    rw [analysisBody_breakdown]
  · rw [analysisBody_breakdown]
    unfold breakdownSum baseScoreOf
    have h0 : readmePointsOf sampleEnv = 0 := rfl
    have h1 : commitPointsOf sampleEnv = 0 := rfl
    have h2 : prIssuesPointsOf sampleEnv = 0 := rfl
    have h3 : bioBlogPoints epochUser = 0 := rfl
    have h4 : aiCryptoPointsOf sampleEnv = 0 := rfl
    have h5 : accountAgeRaw sampleEnv epochUser = 10 / 365 := by
      show accountAgePoints ((sampleEnv.now - 0).fdiv 86400) = 10 / 365
      have : (sampleEnv.now - 0).fdiv 86400 = 1 := by decide
      rw [this]
      unfold accountAgePoints
      rw [if_neg (by omega)]
      norm_num
    rw [h0, h1, h2, h3, h4, h5]
    norm_num [round2]

/-- Witness for C10: the rounding equation instantiated at the sample
environment. -/
theorem claim_C10_witness :
    (analysisBody sampleEnv epochUser).score_breakdown.account_age_points
      = round2 (accountAgeRaw sampleEnv epochUser) :=
  claim_C10_rounded_breakdown.1 sampleEnv epochUser
    (analysisBody sampleEnv epochUser) rfl rfl

end GitHubAnalyzer
